import Mathlib

set_option maxRecDepth 8000

/-!
Verification of the zonal cooling allocation and temperature-bin
classification engine (`src/core/analysis.py`).

Shallow embedding conventions:
* timestamps are integer hours (`Nat`), so the hourly `pd.date_range`
  between the extremes of the union of the input indices is
  `List.range' lo (hi + 1 - lo)`;
* numeric cells are `Option ℚ`: `none` plays the role of `NaN`
  (arithmetic on `none` yields `none`, comparisons against `none` are
  `false`, exactly as NaN behaves in pandas, and `.sum(axis=1)` skips
  `none` cells just as pandas skips NaN);
* a DataFrame is an index list, a column-label list and a total entry
  function; a Series is an index list and a value function;
* `df.ffill().bfill()` is embedded as two passes: forward fill takes the
  last valid observation at or before the row, backward fill takes the
  first valid observation at or after the row.
-/

/-- Column-name string constants (mirrors the literals in the source). -/
def zoneIdCol : String := "ZoneID"

/-- The AHU identifier column of the zone map. -/
def ahuIdCol : String := "AHUID"

/-- Error message raised on a zone-map schema violation. -/
def schema_error_msg : String := "Map DataFrame must contain ZoneID and AHUID columns."

/-- A time-indexed table: time index, column labels, and cell contents
(`none` = NaN). -/
structure DFrame where
  index : List Nat
  cols : List String
  entry : Nat → String → Option ℚ

/-- A single time-indexed series (`none` = NaN). -/
structure SeriesQ where
  index : List Nat
  val : Nat → Option ℚ

/-- The zone→AHU map DataFrame: its column labels and its rows as
(ZoneID value, AHUID value) pairs. -/
structure MapDF where
  cols : List String
  rows : List (String × String)

/-- `df.empty` for a DataFrame: some axis has length 0. -/
def DFrame.isEmpty (df : DFrame) : Bool :=
  df.index.isEmpty || df.cols.isEmpty

/-- `s.empty` for a Series: zero rows. -/
def SeriesQ.isEmpty (s : SeriesQ) : Bool :=
  s.index.isEmpty

/-- `df.empty` for the zone map. -/
def MapDF.isEmpty (m : MapDF) : Bool :=
  m.rows.isEmpty || m.cols.isEmpty

/-- The schema check `{'ZoneID','AHUID'}.issubset(map_df.columns)`. -/
def MapDF.hasSchema (m : MapDF) : Bool :=
  m.cols.contains zoneIdCol && m.cols.contains ahuIdCol

/-- NaN-propagating subtraction. -/
def oSub : Option ℚ → Option ℚ → Option ℚ
  | some a, some b => some (a - b)
  | _, _ => none

/-- NaN-propagating addition. -/
def oAdd : Option ℚ → Option ℚ → Option ℚ
  | some a, some b => some (a + b)
  | _, _ => none

/-- NaN-propagating multiplication. -/
def oMul : Option ℚ → Option ℚ → Option ℚ
  | some a, some b => some (a * b)
  | _, _ => none

/-- Scalar multiple of a possibly-NaN value. -/
def oSmul (q : ℚ) : Option ℚ → Option ℚ
  | some a => some (q * a)
  | none => none

/-- `clip(lower=0)` on a cell: NaN stays NaN. -/
def oClip0 : Option ℚ → Option ℚ
  | some a => some (max a 0)
  | none => none

/-- Elementwise `<` as pandas evaluates it: any comparison with NaN is False. -/
def oLt : Option ℚ → Option ℚ → Bool
  | some a, some b => decide (a < b)
  | _, _ => false

/-- Elementwise `≤` as pandas evaluates it: any comparison with NaN is False. -/
def oLe : Option ℚ → Option ℚ → Bool
  | some a, some b => decide (a ≤ b)
  | _, _ => false

/-- The raw cell seen after `reindex`: present iff both labels exist in the
original frame. -/
def rawCell (df : DFrame) (c : String) (s : Nat) : Option ℚ :=
  if s ∈ df.index ∧ c ∈ df.cols then df.entry s c else none

/-- The raw value of a reindexed series. -/
def rawVal (sr : SeriesQ) (s : Nat) : Option ℚ :=
  if s ∈ sr.index then sr.val s else none

/-- Forward fill over a sorted axis: the last valid observation at or
before `t`. -/
def ffillAt (idx : List Nat) (f : Nat → Option ℚ) (t : Nat) : Option ℚ :=
  ((idx.filter (fun s => s ≤ t)).filterMap f).getLast?

/-- Backward fill over a sorted axis: the first valid observation at or
after `t`. -/
def bfillAt (idx : List Nat) (f : Nat → Option ℚ) (t : Nat) : Option ℚ :=
  ((idx.filter (fun u => t ≤ u)).filterMap f).head?

/-- `reindex(axis).ffill().bfill()` at one point. -/
def alignAt (idx : List Nat) (f : Nat → Option ℚ) (t : Nat) : Option ℚ :=
  bfillAt idx (ffillAt idx f) t

/-- Reindex a DataFrame onto a new index and column set, then forward/backward
fill down each column. -/
def DFrame.alignTo (df : DFrame) (idx : List Nat) (cs : List String) : DFrame :=
  ⟨idx, cs, fun t c => alignAt idx (rawCell df c) t⟩

/-- Reindex a series onto a new index, then forward/backward fill. -/
def SeriesQ.alignTo (sr : SeriesQ) (idx : List Nat) : SeriesQ :=
  ⟨idx, fun t => alignAt idx (rawVal sr) t⟩

/-- Minimum of a list of timestamps (0 on the empty list, never used there). -/
def listMin (l : List Nat) : Nat :=
  l.foldl min (l.headD 0)

/-- Maximum of a list of timestamps. -/
def listMax (l : List Nat) : Nat :=
  l.foldl max 0

/-- `all_indices`: the union of the four input time indices (only its
extremes are consumed). -/
def all_indices (dd ii aa : DFrame) (cc : SeriesQ) : List Nat :=
  dd.index ++ ii.index ++ aa.index ++ cc.index

/-- `common_index`: the fixed-step hourly axis spanning the extremes of the
union of the input indices. -/
def common_index (dd ii aa : DFrame) (cc : SeriesQ) : List Nat :=
  List.range' (listMin (all_indices dd ii aa cc))
    (listMax (all_indices dd ii aa cc) + 1 - listMin (all_indices dd ii aa cc))

/-- `valid_zones`: zones of the map (first-occurrence order, deduplicated as
`Index.intersection` does) that appear among both the IAT and airflow
columns. -/
def valid_zones (ii aa : DFrame) (mm : MapDF) : List String :=
  ((mm.rows.map Prod.fst).eraseDups).filter
    (fun z => decide (z ∈ ii.cols ∧ z ∈ aa.cols))

/-- `map_df.loc[valid_zones]`: the map rows restricted to the valid zones, in
valid-zone order. -/
def map_rows_valid (ii aa : DFrame) (mm : MapDF) : List (String × String) :=
  (valid_zones ii aa mm).flatMap (fun z => mm.rows.filter (fun r => decide (r.1 = z)))

/-- `map_df['AHUID'].unique()` over the restricted map. -/
def valid_ahus (ii aa : DFrame) (mm : MapDF) : List String :=
  ((map_rows_valid ii aa mm).map Prod.snd).eraseDups

/-- The AHU whose discharge temperature a zone column ends up holding after
the assignment loop: the last AHU (in `unique()` iteration order) that is
present in the DAT columns and serves the zone.  Later loop iterations
overwrite earlier assignments; AHUs absent from the DAT data are skipped. -/
def assigned_ahu (dd ii aa : DFrame) (mm : MapDF) (z : String) : Option String :=
  ((valid_ahus ii aa mm).filter
    (fun a => decide (a ∈ dd.cols) && decide ((z, a) ∈ map_rows_valid ii aa mm))).getLast?

/-- The aligned AHU discharge-temperature table. -/
def dat_ahu_aligned (dd ii aa : DFrame) (cc : SeriesQ) : DFrame :=
  dd.alignTo (common_index dd ii aa cc) dd.cols

/-- The aligned zone-temperature table. -/
def iat_aligned (dd ii aa : DFrame) (cc : SeriesQ) : DFrame :=
  ii.alignTo (common_index dd ii aa cc) ii.cols

/-- The aligned airflow table. -/
def airflow_aligned (dd ii aa : DFrame) (cc : SeriesQ) : DFrame :=
  aa.alignTo (common_index dd ii aa cc) aa.cols

/-- The aligned building-cooling series. -/
def cooling_aligned (dd ii aa : DFrame) (cc : SeriesQ) : SeriesQ :=
  cc.alignTo (common_index dd ii aa cc)

/-- `dat_vav`: per-zone assigned discharge temperature (NaN when the zone's
AHU never made it into the DAT columns). -/
def dat_vav (dd ii aa : DFrame) (mm : MapDF) (cc : SeriesQ) (t : Nat) (z : String) :
    Option ℚ :=
  match assigned_ahu dd ii aa mm z with
  | some a => (dat_ahu_aligned dd ii aa cc).entry t a
  | none => none

/-- The proportional demand factor
`prop = ((iat - dat_vav) * airflow).clip(lower=0)`. -/
def prop_factor (dd ii aa : DFrame) (mm : MapDF) (cc : SeriesQ) (t : Nat) (z : String) :
    Option ℚ :=
  oClip0 (oMul
    (oSub ((iat_aligned dd ii aa cc).entry t z) (dat_vav dd ii aa mm cc t z))
    ((airflow_aligned dd ii aa cc).entry t z))

/-- `tot_prop = prop.sum(axis=1)` (pandas sums skip NaN cells). -/
def tot_prop (dd ii aa : DFrame) (mm : MapDF) (cc : SeriesQ) (t : Nat) : ℚ :=
  ((valid_zones ii aa mm).map (fun z => (prop_factor dd ii aa mm cc t z).getD 0)).sum

/-- `tot_prop.replace(0, np.nan)`. -/
def safe_tot_prop (dd ii aa : DFrame) (mm : MapDF) (cc : SeriesQ) (t : Nat) :
    Option ℚ :=
  if tot_prop dd ii aa mm cc t = 0 then none else some (tot_prop dd ii aa mm cc t)

/-- One cell of `cooling_values * prop[col] / safe_tot_prop` before
`fillna(0)`. -/
def cooling_zonal_raw (dd ii aa : DFrame) (mm : MapDF) (cc : SeriesQ)
    (t : Nat) (z : String) : Option ℚ :=
  match (cooling_aligned dd ii aa cc).val t, prop_factor dd ii aa mm cc t z,
      safe_tot_prop dd ii aa mm cc t with
  | some c, some p, some s => some (c * p / s)
  | _, _, _ => none

/-- The same cell after `fillna(0)`. -/
def cooling_zonal_filled (dd ii aa : DFrame) (mm : MapDF) (cc : SeriesQ)
    (t : Nat) (z : String) : ℚ :=
  (cooling_zonal_raw dd ii aa mm cc t z).getD 0

/-- The returned `ZonalCoolingTable`: all-zero rows are dropped. -/
def cooling_zonal_out (dd ii aa : DFrame) (mm : MapDF) (cc : SeriesQ) : DFrame :=
  ⟨(common_index dd ii aa cc).filter
      (fun t => (valid_zones ii aa mm).any
        (fun z => decide (cooling_zonal_filled dd ii aa mm cc t z ≠ 0))),
    valid_zones ii aa mm,
    fun t z => some (cooling_zonal_filled dd ii aa mm cc t z)⟩

/-- `get_cooling_zonal_from_data`: the guards mirror the source in order;
any `None`/empty input short-circuits to the `None` sentinel before the
zone-map schema check, which raises. -/
def get_cooling_zonal_from_data (pn : String) :
    Option DFrame → Option DFrame → Option DFrame → Option MapDF →
    Option SeriesQ → Except String (Option DFrame)
  | some dd, some ii, some aa, some mm, some cc =>
      if dd.isEmpty then .ok none
      else if ii.isEmpty then .ok none
      else if aa.isEmpty then .ok none
      else if mm.isEmpty then .ok none
      else if cc.isEmpty then .ok none
      else if mm.hasSchema then .ok (some (cooling_zonal_out dd ii aa mm cc))
      else .error schema_error_msg
  | _, _, _, _, _ => .ok none

/-- Row total of a table at a timestep (pandas `sum(axis=1)`). -/
def rowTotal (df : DFrame) (t : Nat) : ℚ :=
  (df.cols.map (fun z => (df.entry t z).getD 0)).sum

/-- Alignment of a setpoint/temperature frame onto the zonal-cooling grid:
`reindex(index=common_index, columns=common_cols).ffill().bfill()`. -/
def alignGrid (df cz : DFrame) : DFrame :=
  df.alignTo cz.index cz.cols

/-- `temp_range = (csp - hsp).clip(lower=0)` on one cell. -/
def temp_range (h c : Option ℚ) : Option ℚ :=
  oClip0 (oSub c h)

/-- `bin_cut_X = hsp + q * temp_range` on one cell. -/
def bin_cut (q : ℚ) (h c : Option ℚ) : Option ℚ :=
  oAdd h (oSmul q (temp_range h c))

/-- The six boolean bin masks on one cell (`k = 0 … 5` is bins 1 … 6);
comparisons against NaN are False, as in pandas. -/
def bin_mask : Nat → Option ℚ → Option ℚ → Option ℚ → Bool
  | 0, i, h, _ => oLt i h
  | 1, i, h, c => oLe h i && oLt i (bin_cut (1/4) h c)
  | 2, i, h, c => oLe (bin_cut (1/4) h c) i && oLt i (bin_cut (1/2) h c)
  | 3, i, h, c => oLe (bin_cut (1/2) h c) i && oLt i (bin_cut (3/4) h c)
  | 4, i, h, c => oLe (bin_cut (3/4) h c) i && oLt i c
  | 5, i, _, c => oLe c i
  | _, _, _, _ => false

/-- `df_cooling_zonal.where(bin_k, 0).sum(axis=1)` at one timestep. -/
def bin_cooling (iatF hspF cspF czF : DFrame) (k : Nat) (t : Nat) : ℚ :=
  (czF.cols.map (fun z =>
    if bin_mask k ((alignGrid iatF czF).entry t z) ((alignGrid hspF czF).entry t z)
        ((alignGrid cspF czF).entry t z)
    then (czF.entry t z).getD 0 else 0)).sum

/-- Column label of bin 1. -/
def binName1 : String := "bin1_IAT<HSP"

/-- Column label of bin 2. -/
def binName2 : String := "bin2_0-25%"

/-- Column label of bin 3. -/
def binName3 : String := "bin3_25-50%"

/-- Column label of bin 4. -/
def binName4 : String := "bin4_50-75%"

/-- Column label of bin 5. -/
def binName5 : String := "bin5_75-100%"

/-- Column label of bin 6. -/
def binName6 : String := "bin6_IAT>CSP"

/-- The six bin column labels in output order. -/
def bin_names : List String :=
  [binName1, binName2, binName3, binName4, binName5, binName6]

/-- The returned `BinnedCoolingTable`. -/
def binned_out (iatF hspF cspF czF : DFrame) : DFrame :=
  ⟨czF.index, bin_names, fun t n =>
    if n = binName1 then some (bin_cooling iatF hspF cspF czF 0 t)
    else if n = binName2 then some (bin_cooling iatF hspF cspF czF 1 t)
    else if n = binName3 then some (bin_cooling iatF hspF cspF czF 2 t)
    else if n = binName4 then some (bin_cooling iatF hspF cspF czF 3 t)
    else if n = binName5 then some (bin_cooling iatF hspF cspF czF 4 t)
    else if n = binName6 then some (bin_cooling iatF hspF cspF czF 5 t)
    else none⟩

/-- `categorize_cooling_by_iat_bins_from_data`: guards in source order
(zonal cooling first, then IAT, HSP, CSP, then the post-alignment
emptiness check), `None` on any missing input. -/
def categorize_cooling_by_iat_bins_from_data (pn : String) :
    Option DFrame → Option DFrame → Option DFrame → Option DFrame →
    Option DFrame
  | some iatF, some hspF, some cspF, some czF =>
      if czF.isEmpty then none
      else if iatF.isEmpty then none
      else if hspF.isEmpty then none
      else if cspF.isEmpty then none
      else if (alignGrid iatF czF).isEmpty || (alignGrid hspF czF).isEmpty
          || (alignGrid cspF czF).isEmpty then none
      else some (binned_out iatF hspF cspF czF)
  | _, _, _, _ => none

/-- Project-name argument used by the concrete examples. -/
def pname : String := "demo"

/-- Zone label of the example zone A. -/
def zA : String := "ZoneA"

/-- Zone label of the example zone B. -/
def zB : String := "ZoneB"

/-- AHU label of the example air handler. -/
def ahu1 : String := "AHU1"

/-- Example AHU discharge-temperature table: one hour, DAT = 55 °F. -/
def exDat : DFrame :=
  ⟨[0], [ahu1], fun _ a => if a = ahu1 then some 55 else none⟩

/-- Example zone-temperature table: zone A at 72 °F, zone B at 70 °F. -/
def exIat : DFrame :=
  ⟨[0], [zA, zB], fun _ z => if z = zA then some 72 else if z = zB then some 70 else none⟩

/-- Example airflow table: zone A at 100 CFM, zone B at 50 CFM. -/
def exAirflow : DFrame :=
  ⟨[0], [zA, zB], fun _ z => if z = zA then some 100 else if z = zB then some 50 else none⟩

/-- Example zone→AHU map: both zones on the one AHU. -/
def exMap : MapDF :=
  ⟨[zoneIdCol, ahuIdCol], [(zA, ahu1), (zB, ahu1)]⟩

/-- Example building-cooling series: 150 at the one hour. -/
def exCooling : SeriesQ :=
  ⟨[0], fun _ => some 150⟩

/-- Example heating-setpoint table: 68 °F for both zones. -/
def exHsp : DFrame :=
  ⟨[0], [zA, zB], fun _ z => if z = zA ∨ z = zB then some 68 else none⟩

/-- Example cooling-setpoint table: 74 °F for both zones. -/
def exCsp : DFrame :=
  ⟨[0], [zA, zB], fun _ z => if z = zA ∨ z = zB then some 74 else none⟩

/-- The example allocator output table. -/
def exOut : DFrame := cooling_zonal_out exDat exIat exAirflow exMap exCooling

/-- The example classifier output table. -/
def exBinned : DFrame := binned_out exIat exHsp exCsp exOut

theorem get_cooling_ok_some {pn : String} {dd ii aa : DFrame} {mm : MapDF}
    {cc : SeriesQ} {out : DFrame}
    (h : get_cooling_zonal_from_data pn (some dd) (some ii) (some aa) (some mm)
      (some cc) = .ok (some out)) :
    out = cooling_zonal_out dd ii aa mm cc := by
  simp only [get_cooling_zonal_from_data] at h
  split_ifs at h <;> simp_all

theorem categorize_eq_some {pn : String} {iatF hspF cspF czF b : DFrame}
    (h : categorize_cooling_by_iat_bins_from_data pn (some iatF) (some hspF)
      (some cspF) (some czF) = some b) :
    b = binned_out iatF hspF cspF czF := by
  simp only [categorize_cooling_by_iat_bins_from_data] at h
  split_ifs at h <;> simp_all

/-- C3: on the concrete two-zone, one-AHU, one-hour scenario
(DAT = 55; zone A: IAT 72, airflow 100; zone B: IAT 70, airflow 50;
HSP 68, CSP 74; building cooling 150) the allocator returns exactly
A = 150·1700/2450 and B = 150·750/2450 at the single retained hour, and the
classifier puts B's share in bin 3, A's share in bin 4, and 0 in every
other bin. -/
theorem concrete_scenario :
    get_cooling_zonal_from_data pname (some exDat) (some exIat) (some exAirflow)
        (some exMap) (some exCooling) = .ok (some exOut)
    ∧ exOut.index = [0]
    ∧ exOut.entry 0 zA = some (150 * 1700 / 2450)
    ∧ exOut.entry 0 zB = some (150 * 750 / 2450)
    ∧ categorize_cooling_by_iat_bins_from_data pname (some exIat) (some exHsp)
        (some exCsp) (some exOut) = some exBinned
    ∧ exBinned.entry 0 binName3 = some (150 * 750 / 2450)
    ∧ exBinned.entry 0 binName4 = some (150 * 1700 / 2450)
    ∧ exBinned.entry 0 binName1 = some 0
    ∧ exBinned.entry 0 binName2 = some 0
    ∧ exBinned.entry 0 binName5 = some 0
    ∧ exBinned.entry 0 binName6 = some 0 := by
  refine ⟨rfl, ?_, ?_, ?_, ?_, ?_, ?_, ?_, ?_, ?_, ?_⟩ <;> with_unfolding_all rfl

/-- An identically-zero building-cooling series on the example hour. -/
def exCoolingZero : SeriesQ := ⟨[0], fun _ => some 0⟩

/-- The allocator output for the zero-cooling input. -/
def exOutZero : DFrame := cooling_zonal_out exDat exIat exAirflow exMap exCoolingZero

/-- C10: with valid, non-empty inputs whose building cooling is identically
zero, every allocation row is all-zero and is dropped, so the allocator
returns a zero-row table (not the `None` sentinel); the classifier then
rejects that empty table with `None`, so callers must test for emptiness as
well as for `None`. -/
theorem empty_result_not_none :
    get_cooling_zonal_from_data pname (some exDat) (some exIat) (some exAirflow)
        (some exMap) (some exCoolingZero) = .ok (some exOutZero)
    ∧ exOutZero.index = []
    ∧ exOutZero.isEmpty = true
    ∧ categorize_cooling_by_iat_bins_from_data pname (some exIat) (some exHsp)
        (some exCsp) (some exOutZero) = none := by
  refine ⟨rfl, ?_, ?_, ?_⟩ <;> with_unfolding_all rfl

/-- A non-empty zone map lacking the AHU-identifier column. -/
def exMapNoAhu : MapDF := ⟨[zoneIdCol], [(zA, ahu1)]⟩

/-- An AHU table with zero rows. -/
def exDatEmpty : DFrame := ⟨[], [ahu1], fun _ _ => none⟩

/-- C7: any `None` or empty input (in any of the five positions) makes the
allocator return the `None` sentinel without raising, while five non-empty
inputs with a zone map lacking the ZoneID/AHUID schema make it raise the
schema error instead of returning the sentinel. -/
theorem alloc_error_handling :
    (∀ pn i a m c, get_cooling_zonal_from_data pn none i a m c = .ok none)
    ∧ (∀ pn d a m c, get_cooling_zonal_from_data pn d none a m c = .ok none)
    ∧ (∀ pn d i m c, get_cooling_zonal_from_data pn d i none m c = .ok none)
    ∧ (∀ pn d i a c, get_cooling_zonal_from_data pn d i a none c = .ok none)
    ∧ (∀ pn d i a m, get_cooling_zonal_from_data pn d i a m none = .ok none)
    ∧ (∀ pn dd i a m c, dd.isEmpty = true →
        get_cooling_zonal_from_data pn (some dd) i a m c = .ok none)
    ∧ (∀ pn d ii a m c, ii.isEmpty = true →
        get_cooling_zonal_from_data pn d (some ii) a m c = .ok none)
    ∧ (∀ pn d i aa m c, aa.isEmpty = true →
        get_cooling_zonal_from_data pn d i (some aa) m c = .ok none)
    ∧ (∀ pn d i a mm c, mm.isEmpty = true →
        get_cooling_zonal_from_data pn d i a (some mm) c = .ok none)
    ∧ (∀ pn d i a m cz, cz.isEmpty = true →
        get_cooling_zonal_from_data pn d i a m (some cz) = .ok none)
    ∧ (∀ pn dd ii aa mm cz, dd.isEmpty = false → ii.isEmpty = false →
        aa.isEmpty = false → mm.isEmpty = false → cz.isEmpty = false →
        mm.hasSchema = false →
        get_cooling_zonal_from_data pn (some dd) (some ii) (some aa) (some mm)
          (some cz) = .error schema_error_msg) := by
  refine ⟨?_, ?_, ?_, ?_, ?_, ?_, ?_, ?_, ?_, ?_, ?_⟩
  · intro pn i a m c; rfl
  · intro pn d a m c; cases d <;> rfl
  · intro pn d i m c; cases d <;> cases i <;> rfl
  · intro pn d i a c; cases d <;> cases i <;> cases a <;> rfl
  · intro pn d i a m; cases d <;> cases i <;> cases a <;> cases m <;> rfl
  · intro pn dd i a m c h
    cases i <;> cases a <;> cases m <;> cases c <;>
      simp [get_cooling_zonal_from_data, h]
  · intro pn d ii a m c h
    cases d <;> cases a <;> cases m <;> cases c <;>
      simp [get_cooling_zonal_from_data, h]
  · intro pn d i aa m c h
    cases d <;> cases i <;> cases m <;> cases c <;>
      simp [get_cooling_zonal_from_data, h]
  · intro pn d i a mm c h
    cases d <;> cases i <;> cases a <;> cases c <;>
      simp [get_cooling_zonal_from_data, h]
  · intro pn d i a m cz h
    cases d <;> cases i <;> cases a <;> cases m <;>
      simp [get_cooling_zonal_from_data, h]
  · intro pn dd ii aa mm cz h1 h2 h3 h4 h5 hs
    simp [get_cooling_zonal_from_data, h1, h2, h3, h4, h5, hs]

theorem alloc_error_handling_witness :
    get_cooling_zonal_from_data pname none (some exIat) (some exAirflow)
        (some exMap) (some exCooling) = .ok none
    ∧ get_cooling_zonal_from_data pname (some exDatEmpty) (some exIat)
        (some exAirflow) (some exMap) (some exCooling) = .ok none
    ∧ get_cooling_zonal_from_data pname (some exDat) (some exIat)
        (some exAirflow) (some exMapNoAhu) (some exCooling)
        = .error schema_error_msg :=
  ⟨alloc_error_handling.1 pname (some exIat) (some exAirflow) (some exMap)
      (some exCooling),
    (alloc_error_handling.2.2.2.2.2.1) pname exDatEmpty (some exIat)
      (some exAirflow) (some exMap) (some exCooling) rfl,
    (alloc_error_handling.2.2.2.2.2.2.2.2.2.2) pname exDat exIat exAirflow
      exMapNoAhu exCooling rfl rfl rfl rfl rfl rfl⟩

theorem prop_factor_nonneg {dd ii aa : DFrame} {mm : MapDF} {cc : SeriesQ}
    {t : Nat} {z : String} {p : ℚ}
    (h : prop_factor dd ii aa mm cc t z = some p) : 0 ≤ p := by
  unfold prop_factor oClip0 at h
  rcases hm : oMul (oSub ((iat_aligned dd ii aa cc).entry t z)
      (dat_vav dd ii aa mm cc t z)) ((airflow_aligned dd ii aa cc).entry t z) with _ | a
  · rw [hm] at h; cases h
  · rw [hm] at h
    have : p = max a 0 := by cases h; rfl
    rw [this]
    exact le_max_right a 0

theorem prop_getD_nonneg (dd ii aa : DFrame) (mm : MapDF) (cc : SeriesQ)
    (t : Nat) (z : String) : 0 ≤ (prop_factor dd ii aa mm cc t z).getD 0 := by
  rcases h : prop_factor dd ii aa mm cc t z with _ | p
  · simp
  · simpa using prop_factor_nonneg h

theorem tot_prop_nonneg (dd ii aa : DFrame) (mm : MapDF) (cc : SeriesQ)
    (t : Nat) : 0 ≤ tot_prop dd ii aa mm cc t := by
  refine List.sum_nonneg ?_
  intro x hx
  rcases List.mem_map.1 hx with ⟨z, _, rfl⟩
  exact prop_getD_nonneg dd ii aa mm cc t z

theorem safe_tot_prop_eq_some {dd ii aa : DFrame} {mm : MapDF} {cc : SeriesQ}
    {t : Nat} {s : ℚ} (h : safe_tot_prop dd ii aa mm cc t = some s) :
    s = tot_prop dd ii aa mm cc t ∧ 0 < s := by
  unfold safe_tot_prop at h
  split_ifs at h with h0
  cases h
  exact ⟨rfl, lt_of_le_of_ne (tot_prop_nonneg dd ii aa mm cc t) (Ne.symm h0)⟩

/-- C5: whenever the aligned building-cooling value is non-negative on every
timestep retained in the result, every cell of the returned
`ZonalCoolingTable` is non-negative. -/
theorem allocation_nonneg (pn : String) (dd ii aa : DFrame) (mm : MapDF)
    (cc : SeriesQ) (out : DFrame)
    (hres : get_cooling_zonal_from_data pn (some dd) (some ii) (some aa)
      (some mm) (some cc) = .ok (some out))
    (hcool : ∀ t ∈ out.index, ∀ c, (cooling_aligned dd ii aa cc).val t = some c →
      0 ≤ c) :
    ∀ t ∈ out.index, ∀ z ∈ out.cols, ∀ v, out.entry t z = some v → 0 ≤ v := by
  have hout := get_cooling_ok_some hres
  subst hout
  intro t ht z _ v hv
  have hv0 : v = cooling_zonal_filled dd ii aa mm cc t z := by
    cases hv; rfl
  subst hv0
  unfold cooling_zonal_filled
  rcases hr : cooling_zonal_raw dd ii aa mm cc t z with _ | w
  · simp
  · rcases hc : (cooling_aligned dd ii aa cc).val t with _ | c <;>
      rcases hp : prop_factor dd ii aa mm cc t z with _ | p <;>
      rcases hs : safe_tot_prop dd ii aa mm cc t with _ | s <;>
      unfold cooling_zonal_raw at hr <;> rw [hc, hp, hs] at hr <;> cases hr
    have hc0 : 0 ≤ c := hcool t ht c hc
    have hp0 : 0 ≤ p := prop_factor_nonneg hp
    have hs0 : 0 < s := (safe_tot_prop_eq_some hs).2
    simpa using div_nonneg (mul_nonneg hc0 hp0) (le_of_lt hs0)

theorem allocation_nonneg_witness :
    exOut.entry 0 zA = some (150 * 1700 / 2450)
    ∧ 0 ≤ ((150 : ℚ) * 1700 / 2450) := by
  refine ⟨by with_unfolding_all rfl, ?_⟩
  refine allocation_nonneg pname exDat exIat exAirflow exMap exCooling exOut rfl
    ?_ 0 ?_ zA ?_ (150 * 1700 / 2450) (by with_unfolding_all rfl)
  · intro t ht c hc
    have hidx : exOut.index = [0] := by with_unfolding_all rfl
    rw [hidx] at ht
    have ht0 : t = 0 := by simpa using ht
    subst ht0
    have hval : (cooling_aligned exDat exIat exAirflow exCooling).val 0
        = some 150 := by with_unfolding_all rfl
    rw [hval] at hc
    have : c = 150 := by cases hc; rfl
    rw [this]
    norm_num
  · have hidx : exOut.index = [0] := by with_unfolding_all rfl
    rw [hidx]; simp
  · have hcols : exOut.cols = [zA, zB] := by with_unfolding_all rfl
    rw [hcols]; simp

/-- An airflow table that is identically zero for both example zones. -/
def exAirflowZero : DFrame :=
  ⟨[0], [zA, zB], fun _ z => if z = zA ∨ z = zB then some 0 else none⟩

/-- Allocator output for the zero-airflow example. -/
def exOutAfZero : DFrame :=
  cooling_zonal_out exDat exIat exAirflowZero exMap exCooling

/-- C6: at a timestep where every retained zone's aligned airflow is 0, the
total proportional factor is 0, the allocation is 0 for every zone (the
zero-total division is defined away, no NaN survives: every output cell is a
number), and the all-zero row is dropped from the output. -/
theorem zero_demand (pn : String) (dd ii aa : DFrame) (mm : MapDF)
    (cc : SeriesQ) (out : DFrame) (t : Nat)
    (hres : get_cooling_zonal_from_data pn (some dd) (some ii) (some aa)
      (some mm) (some cc) = .ok (some out))
    (haf : ∀ z ∈ valid_zones ii aa mm,
      (airflow_aligned dd ii aa cc).entry t z = some 0) :
    tot_prop dd ii aa mm cc t = 0
    ∧ (∀ z ∈ valid_zones ii aa mm, cooling_zonal_filled dd ii aa mm cc t z = 0)
    ∧ t ∉ out.index
    ∧ (∀ u ∈ out.index, ∀ z ∈ out.cols, (out.entry u z).isSome = true) := by
  have hout := get_cooling_ok_some hres
  subst hout
  have hzero : ∀ z ∈ valid_zones ii aa mm,
      (prop_factor dd ii aa mm cc t z).getD 0 = 0 := by
    intro z hz
    have ha := haf z hz
    unfold prop_factor
    rw [ha]
    rcases hsub : oSub ((iat_aligned dd ii aa cc).entry t z)
        (dat_vav dd ii aa mm cc t z) with _ | x
    · simp [oMul, oClip0]
    · simp [oMul, oClip0]
  have htot : tot_prop dd ii aa mm cc t = 0 := by
    unfold tot_prop
    refine List.sum_eq_zero ?_
    intro x hx
    rcases List.mem_map.1 hx with ⟨z, hz, rfl⟩
    exact hzero z hz
  have hsafe : safe_tot_prop dd ii aa mm cc t = none := by
    unfold safe_tot_prop
    rw [htot]
    simp
  have hfill : ∀ z, cooling_zonal_filled dd ii aa mm cc t z = 0 := by
    intro z
    unfold cooling_zonal_filled cooling_zonal_raw
    rw [hsafe]
    rcases hc : (cooling_aligned dd ii aa cc).val t with _ | c <;>
      rcases hp : prop_factor dd ii aa mm cc t z with _ | p <;> simp
  refine ⟨htot, fun z _ => hfill z, ?_, ?_⟩
  · intro hin
    simp only [cooling_zonal_out, List.mem_filter] at hin
    rcases hin with ⟨_, hany⟩
    rcases List.any_eq_true.1 hany with ⟨z, hz, hdec⟩
    simp only [decide_eq_true_eq] at hdec
    exact hdec (hfill z)
  · intro u _ z _
    simp [cooling_zonal_out]

theorem zero_demand_witness :
    tot_prop exDat exIat exAirflowZero exMap exCooling 0 = 0
    ∧ (∀ z ∈ valid_zones exIat exAirflowZero exMap,
        cooling_zonal_filled exDat exIat exAirflowZero exMap exCooling 0 z = 0)
    ∧ 0 ∉ exOutAfZero.index
    ∧ (∀ u ∈ exOutAfZero.index, ∀ z ∈ exOutAfZero.cols,
        (exOutAfZero.entry u z).isSome = true) := by
  refine zero_demand pname exDat exIat exAirflowZero exMap exCooling
    exOutAfZero 0 rfl ?_
  intro z hz
  have hv : valid_zones exIat exAirflowZero exMap = [zA, zB] := by
    with_unfolding_all rfl
  rw [hv] at hz
  simp only [List.mem_cons, List.mem_singleton] at hz
  rcases hz with rfl | hz
  · with_unfolding_all rfl
  · rcases hz with rfl | hz
    · with_unfolding_all rfl
    · simp at hz

/-- C1: at every timestep retained in the allocator's output whose total
proportional demand factor is strictly positive, the aligned building
cooling is a number `c` and the output row sums exactly to `c` (exact
rational arithmetic, hence within any relative tolerance). -/
theorem allocation_conservation (pn : String) (dd ii aa : DFrame) (mm : MapDF)
    (cc : SeriesQ) (out : DFrame) (t : Nat)
    (hres : get_cooling_zonal_from_data pn (some dd) (some ii) (some aa)
      (some mm) (some cc) = .ok (some out))
    (ht : t ∈ out.index)
    (hpos : 0 < tot_prop dd ii aa mm cc t) :
    ∃ c, (cooling_aligned dd ii aa cc).val t = some c ∧ rowTotal out t = c := by
  have hout := get_cooling_ok_some hres
  subst hout
  have hT : tot_prop dd ii aa mm cc t ≠ 0 := ne_of_gt hpos
  have hsafe : safe_tot_prop dd ii aa mm cc t
      = some (tot_prop dd ii aa mm cc t) := by
    unfold safe_tot_prop
    rw [if_neg hT]
  obtain ⟨c, hc⟩ : ∃ c, (cooling_aligned dd ii aa cc).val t = some c := by
    simp only [cooling_zonal_out, List.mem_filter] at ht
    rcases ht with ⟨_, hany⟩
    rcases List.any_eq_true.1 hany with ⟨z, _, hdec⟩
    simp only [decide_eq_true_eq] at hdec
    rcases hcv : (cooling_aligned dd ii aa cc).val t with _ | c
    · exfalso
      apply hdec
      unfold cooling_zonal_filled cooling_zonal_raw
      rw [hcv]
      simp
    · exact ⟨c, rfl⟩
  refine ⟨c, hc, ?_⟩
  have hfun : ∀ z, cooling_zonal_filled dd ii aa mm cc t z
      = c / tot_prop dd ii aa mm cc t * (prop_factor dd ii aa mm cc t z).getD 0 := by
    intro z
    unfold cooling_zonal_filled cooling_zonal_raw
    rw [hc, hsafe]
    rcases hp : prop_factor dd ii aa mm cc t z with _ | p
    · simp
    · simp only [Option.getD_some]
      rw [mul_div_right_comm]
  have hcols : rowTotal (cooling_zonal_out dd ii aa mm cc) t
      = ((valid_zones ii aa mm).map
          (fun z => cooling_zonal_filled dd ii aa mm cc t z)).sum := by
    simp [rowTotal, cooling_zonal_out]
  rw [hcols]
  calc ((valid_zones ii aa mm).map
        (fun z => cooling_zonal_filled dd ii aa mm cc t z)).sum
      = ((valid_zones ii aa mm).map
          (fun z => c / tot_prop dd ii aa mm cc t
            * (prop_factor dd ii aa mm cc t z).getD 0)).sum := by
        refine congrArg List.sum (List.map_congr_left ?_)
        intro z _
        exact hfun z
    _ = c / tot_prop dd ii aa mm cc t
          * ((valid_zones ii aa mm).map
              (fun z => (prop_factor dd ii aa mm cc t z).getD 0)).sum := by
        rw [List.sum_map_mul_left]
    _ = c := by
        rw [show ((valid_zones ii aa mm).map
            (fun z => (prop_factor dd ii aa mm cc t z).getD 0)).sum
            = tot_prop dd ii aa mm cc t from rfl]
        exact div_mul_cancel₀ c hT

theorem allocation_conservation_witness :
    0 < tot_prop exDat exIat exAirflow exMap exCooling 0
    ∧ ∃ c, (cooling_aligned exDat exIat exAirflow exCooling).val 0 = some c
        ∧ rowTotal exOut 0 = c := by
  refine ⟨of_decide_eq_true (by with_unfolding_all rfl), ?_⟩
  refine allocation_conservation pname exDat exIat exAirflow exMap exCooling
    exOut 0 rfl ?_ (of_decide_eq_true (by with_unfolding_all rfl))
  have hidx : exOut.index = [0] := by with_unfolding_all rfl
  rw [hidx]
  simp

theorem count_bin_masks_eq_one (iv hv cv : ℚ) (hle : hv ≤ cv) :
    (List.range 6).countP
      (fun k => bin_mask k (some iv) (some hv) (some cv)) = 1 := by
  have hcut : ∀ q : ℚ, bin_cut q (some hv) (some cv) = some (hv + q * (cv - hv)) := by
    intro q
    simp [bin_cut, temp_range, oClip0, oSub, oAdd, oSmul,
      max_eq_left (sub_nonneg.2 hle)]
  have hr : (List.range 6) = [0, 1, 2, 3, 4, 5] := rfl
  rw [hr]
  simp only [List.countP_cons, List.countP_nil, bin_mask, hcut, oLe, oLt,
    Bool.and_eq_true, decide_eq_true_eq]
  have hd : (0 : ℚ) ≤ cv - hv := sub_nonneg.2 hle
  rcases lt_or_le iv hv with h1 | h1
  · have f1 : ¬ hv ≤ iv := not_le.2 h1
    have f2 : ¬ hv + 1 / 4 * (cv - hv) ≤ iv := by intro h; linarith
    have f3 : ¬ hv + 1 / 2 * (cv - hv) ≤ iv := by intro h; linarith
    have f4 : ¬ hv + 3 / 4 * (cv - hv) ≤ iv := by intro h; linarith
    have f5 : ¬ cv ≤ iv := by intro h; linarith
    simp only [h1, f1, f2, f3, f4, f5, if_true, if_false, iff_true, iff_false,
      true_and, false_and, and_true, and_false, ite_true, ite_false]
  · rcases lt_or_le iv (hv + 1 / 4 * (cv - hv)) with h2 | h2
    · have f0 : ¬ iv < hv := not_lt.2 h1
      have f4 : ¬ hv + 1 / 2 * (cv - hv) ≤ iv := by intro h; linarith
      have f5 : ¬ hv + 3 / 4 * (cv - hv) ≤ iv := by intro h; linarith
      have f6 : ¬ cv ≤ iv := by intro h; linarith
      have g2 : ¬ hv + 1 / 4 * (cv - hv) ≤ iv := not_le.2 h2
      simp only [h1, h2, f0, g2, f4, f5, f6, if_true, if_false, iff_true,
        iff_false, true_and, false_and, and_true, and_false, ite_true,
        ite_false]
    · rcases lt_or_le iv (hv + 1 / 2 * (cv - hv)) with h3 | h3
      · have f0 : ¬ iv < hv := not_lt.2 h1
        have f1 : ¬ iv < hv + 1 / 4 * (cv - hv) := not_lt.2 h2
        have f4 : ¬ hv + 3 / 4 * (cv - hv) ≤ iv := by intro h; linarith
        have f5 : ¬ cv ≤ iv := by intro h; linarith
        have g3 : ¬ hv + 1 / 2 * (cv - hv) ≤ iv := not_le.2 h3
        simp only [h2, h3, f0, f1, g3, f4, f5, if_true, if_false, iff_true,
          iff_false, true_and, false_and, and_true, and_false, ite_true,
          ite_false]
      · rcases lt_or_le iv (hv + 3 / 4 * (cv - hv)) with h4 | h4
        · have f0 : ¬ iv < hv := not_lt.2 h1
          have f1 : ¬ iv < hv + 1 / 4 * (cv - hv) := not_lt.2 h2
          have f2 : ¬ iv < hv + 1 / 2 * (cv - hv) := not_lt.2 h3
          have f5 : ¬ cv ≤ iv := by intro h; linarith
          have g4 : ¬ hv + 3 / 4 * (cv - hv) ≤ iv := not_le.2 h4
          simp only [h3, h4, f0, f1, f2, g4, f5, if_true, if_false, iff_true,
            iff_false, true_and, false_and, and_true, and_false, ite_true,
            ite_false]
        · rcases lt_or_le iv cv with h5 | h5
          · have f0 : ¬ iv < hv := not_lt.2 h1
            have f1 : ¬ iv < hv + 1 / 4 * (cv - hv) := not_lt.2 h2
            have f2 : ¬ iv < hv + 1 / 2 * (cv - hv) := not_lt.2 h3
            have f3 : ¬ iv < hv + 3 / 4 * (cv - hv) := not_lt.2 h4
            have f6 : ¬ cv ≤ iv := not_le.2 h5
            simp only [h4, h5, f0, f1, f2, f3, f6, if_true, if_false, iff_true,
              iff_false, true_and, false_and, and_true, and_false, ite_true,
              ite_false]
          · have f0 : ¬ iv < hv := not_lt.2 h1
            have f1 : ¬ iv < hv + 1 / 4 * (cv - hv) := not_lt.2 h2
            have f2 : ¬ iv < hv + 1 / 2 * (cv - hv) := not_lt.2 h3
            have f3 : ¬ iv < hv + 3 / 4 * (cv - hv) := not_lt.2 h4
            have f4 : ¬ iv < cv := not_lt.2 h5
            simp only [h5, f0, f1, f2, f3, f4, if_true, if_false, iff_true,
              iff_false, true_and, false_and, and_true, and_false, ite_true,
              ite_false]

theorem sum_map_zero (L : List String) : (L.map (fun _ => (0 : ℚ))).sum = 0 := by
  induction L with
  | nil => rfl
  | cons a l ih => simp [ih]

theorem sum_map_add_distrib (L : List String) (f g : String → ℚ) :
    (L.map (fun z => f z + g z)).sum = (L.map f).sum + (L.map g).sum := by
  induction L with
  | nil => simp
  | cons a l ih =>
    simp only [List.map_cons, List.sum_cons, ih]
    ring

theorem sum_map_comm (K : List Nat) (L : List String) (F : Nat → String → ℚ) :
    (K.map (fun k => (L.map (F k)).sum)).sum
      = (L.map (fun z => (K.map (fun k => F k z)).sum)).sum := by
  induction K with
  | nil => simp [sum_map_zero]
  | cons a K ih =>
    simp only [List.map_cons, List.sum_cons, ih]
    rw [← sum_map_add_distrib]

theorem sum_map_ite_of_countP_one {m : Nat → Bool} {K : List Nat}
    (h : K.countP m = 1) (v : ℚ) :
    (K.map (fun k => if m k then v else 0)).sum = v := by
  induction K with
  | nil => simp [List.countP_nil] at h
  | cons a K ih =>
    rw [List.countP_cons] at h
    rcases hm : m a with _ | _ <;> rw [hm] at h <;> simp at h <;>
      simp only [List.map_cons, List.sum_cons, hm, ite_true, ite_false]
    · rw [ih h]
      simp
    · have hz : (K.map (fun k => if m k then v else 0)).sum = 0 := by
        refine List.sum_eq_zero ?_
        intro x hx
        rcases List.mem_map.1 hx with ⟨k, hk, rfl⟩
        simp [h k hk]
      rw [hz]
      simp

/-- C2 (amended): at every cell of the aligned grid whose aligned IAT, HSP
and CSP values are present (non-NaN) and satisfy HSP ≤ CSP, exactly one of
the six bin predicates holds, and for a timestep all of whose cells satisfy
this, bin1+…+bin6 of the output row equals the zonal-cooling row total.
As stated over every input the claim is false: with an inverted deadband
(CSP < HSP) a cell can satisfy both the Bin-1 and Bin-6 predicates, and NaN
cells satisfy none (see `bins_partition_counterexample`). -/
theorem bins_partition (pn : String) (iatF hspF cspF czF b : DFrame) (t : Nat)
    (hres : categorize_cooling_by_iat_bins_from_data pn (some iatF) (some hspF)
      (some cspF) (some czF) = some b)
    (hcell : ∀ z ∈ czF.cols, ∃ iv hv cv,
      (alignGrid iatF czF).entry t z = some iv
      ∧ (alignGrid hspF czF).entry t z = some hv
      ∧ (alignGrid cspF czF).entry t z = some cv
      ∧ hv ≤ cv) :
    (∀ z ∈ czF.cols, (List.range 6).countP
      (fun k => bin_mask k ((alignGrid iatF czF).entry t z)
        ((alignGrid hspF czF).entry t z) ((alignGrid cspF czF).entry t z)) = 1)
    ∧ (bin_names.map (fun n => (b.entry t n).getD 0)).sum = rowTotal czF t := by
  have hb := categorize_eq_some hres
  subst hb
  have hone : ∀ z ∈ czF.cols, (List.range 6).countP
      (fun k => bin_mask k ((alignGrid iatF czF).entry t z)
        ((alignGrid hspF czF).entry t z) ((alignGrid cspF czF).entry t z)) = 1 := by
    intro z hz
    obtain ⟨iv, hv, cv, hiv, hhv, hcv, hle⟩ := hcell z hz
    rw [hiv, hhv, hcv]
    exact count_bin_masks_eq_one iv hv cv hle
  refine ⟨hone, ?_⟩
  have hmap : (bin_names.map
        (fun n => ((binned_out iatF hspF cspF czF).entry t n).getD 0))
      = (List.range 6).map (fun k => bin_cooling iatF hspF cspF czF k t) := rfl
  rw [hmap]
  have hbc : ((List.range 6).map (fun k => bin_cooling iatF hspF cspF czF k t)).sum
      = (czF.cols.map (fun z => ((List.range 6).map
          (fun k => if bin_mask k ((alignGrid iatF czF).entry t z)
              ((alignGrid hspF czF).entry t z) ((alignGrid cspF czF).entry t z)
            then (czF.entry t z).getD 0 else 0)).sum)).sum :=
    sum_map_comm (List.range 6) czF.cols
      (fun k z => if bin_mask k ((alignGrid iatF czF).entry t z)
          ((alignGrid hspF czF).entry t z) ((alignGrid cspF czF).entry t z)
        then (czF.entry t z).getD 0 else 0)
  rw [hbc]
  have hrow : (czF.cols.map (fun z => ((List.range 6).map
        (fun k => if bin_mask k ((alignGrid iatF czF).entry t z)
            ((alignGrid hspF czF).entry t z) ((alignGrid cspF czF).entry t z)
          then (czF.entry t z).getD 0 else 0)).sum)).sum
      = (czF.cols.map (fun z => (czF.entry t z).getD 0)).sum := by
    refine congrArg List.sum (List.map_congr_left ?_)
    intro z hz
    exact sum_map_ite_of_countP_one (hone z hz) ((czF.entry t z).getD 0)
  rw [hrow]
  rfl

/-- Inverted-setpoint fixtures: HSP 70 above CSP 60, IAT 65 in between. -/
def exIatInv : DFrame := ⟨[0], [zA], fun _ z => if z = zA then some 65 else none⟩

/-- Heating setpoint 70 (above the cooling setpoint). -/
def exHspInv : DFrame := ⟨[0], [zA], fun _ z => if z = zA then some 70 else none⟩

/-- Cooling setpoint 60 (below the heating setpoint). -/
def exCspInv : DFrame := ⟨[0], [zA], fun _ z => if z = zA then some 60 else none⟩

/-- Zonal cooling of 100 for the one zone. -/
def exCzInv : DFrame := ⟨[0], [zA], fun _ z => if z = zA then some 100 else none⟩

theorem bins_partition_counterexample :
    ((List.range 6).countP (fun k => bin_mask k (some 65) (some 70) (some 60))) = 2
    ∧ (categorize_cooling_by_iat_bins_from_data pname (some exIatInv)
        (some exHspInv) (some exCspInv) (some exCzInv)
        = some (binned_out exIatInv exHspInv exCspInv exCzInv))
    ∧ (bin_names.map (fun n =>
        ((binned_out exIatInv exHspInv exCspInv exCzInv).entry 0 n).getD 0)).sum = 200
    ∧ rowTotal exCzInv 0 = 100 := by
  refine ⟨?_, ?_, ?_, ?_⟩ <;> with_unfolding_all rfl

theorem bins_partition_witness :
    (∀ z ∈ exOut.cols, (List.range 6).countP
      (fun k => bin_mask k ((alignGrid exIat exOut).entry 0 z)
        ((alignGrid exHsp exOut).entry 0 z)
        ((alignGrid exCsp exOut).entry 0 z)) = 1)
    ∧ (bin_names.map (fun n =>
        ((binned_out exIat exHsp exCsp exOut).entry 0 n).getD 0)).sum
      = rowTotal exOut 0 := by
  refine bins_partition pname exIat exHsp exCsp exOut
    (binned_out exIat exHsp exCsp exOut) 0 (by with_unfolding_all rfl) ?_
  intro z hz
  have hcols : exOut.cols = [zA, zB] := by with_unfolding_all rfl
  rw [hcols] at hz
  simp only [List.mem_cons, List.mem_singleton] at hz
  rcases hz with rfl | hz
  · exact ⟨72, 68, 74, by with_unfolding_all rfl, by with_unfolding_all rfl,
      by with_unfolding_all rfl, by norm_num⟩
  · rcases hz with rfl | hz
    · exact ⟨70, 68, 74, by with_unfolding_all rfl, by with_unfolding_all rfl,
        by with_unfolding_all rfl, by norm_num⟩
    · simp at hz

/-- C4 (amended): for present cell values, a cell with IAT exactly equal to
HSP falls in Bin 2 and not Bin 1 provided HSP < CSP at that cell, and a cell
with IAT exactly equal to CSP falls in Bin 6 and never in Bin 5.  With a
degenerate deadband (HSP = CSP) the IAT = HSP cell lands in Bin 6, not
Bin 2 (see `boundary_tiebreak_counterexample`). -/
theorem boundary_tiebreak (h c : ℚ) :
    (h < c →
      bin_mask 1 (some h) (some h) (some c) = true
      ∧ bin_mask 0 (some h) (some h) (some c) = false)
    ∧ (bin_mask 5 (some c) (some h) (some c) = true
      ∧ bin_mask 4 (some c) (some h) (some c) = false) := by
  constructor
  · intro hlt
    constructor
    · have hmax : max (c - h) 0 = c - h := max_eq_left (by linarith)
      simp only [bin_mask, bin_cut, temp_range, oClip0, oSub, oAdd, oSmul,
        oLe, oLt, hmax, Bool.and_eq_true, decide_eq_true_eq]
      constructor
      · exact le_refl h
      · linarith
    · simp only [bin_mask, oLt, decide_eq_false_iff_not]
      exact lt_irrefl h
  · constructor
    · simp only [bin_mask, oLe, decide_eq_true_eq]
      exact le_refl c
    · simp only [bin_mask, oLt]
      have : decide (c < c) = false := decide_eq_false (lt_irrefl c)
      rw [this]
      simp

/-- Equal-setpoint fixtures: IAT = HSP = CSP = 70 for the single zone. -/
def exEq70 : DFrame := ⟨[0], [zA], fun _ z => if z = zA then some 70 else none⟩

theorem boundary_tiebreak_counterexample :
    bin_mask 1 (some 70) (some 70) (some 70) = false
    ∧ bin_mask 5 (some 70) (some 70) (some 70) = true
    ∧ (categorize_cooling_by_iat_bins_from_data pname (some exEq70)
        (some exEq70) (some exEq70) (some exCzInv)
        = some (binned_out exEq70 exEq70 exEq70 exCzInv))
    ∧ (binned_out exEq70 exEq70 exEq70 exCzInv).entry 0 binName2 = some 0
    ∧ (binned_out exEq70 exEq70 exEq70 exCzInv).entry 0 binName6 = some 100 := by
  refine ⟨?_, ?_, ?_, ?_, ?_⟩ <;> with_unfolding_all rfl

theorem boundary_tiebreak_witness :
    (bin_mask 1 (some 68) (some 68) (some 74) = true
      ∧ bin_mask 0 (some 68) (some 68) (some 74) = false)
    ∧ (bin_mask 5 (some 74) (some 68) (some 74) = true
      ∧ bin_mask 4 (some 74) (some 68) (some 74) = false) :=
  ⟨(boundary_tiebreak 68 74).1 (by norm_num), (boundary_tiebreak 68 74).2⟩

theorem oLe_none_right (a : Option ℚ) : oLe a none = false := by
  cases a <;> rfl

theorem oLt_none_left (b : Option ℚ) : oLt none b = false := by
  cases b <;> rfl

theorem bin_mask_none (k : Nat) (h c : Option ℚ) : bin_mask k none h c = false := by
  match k with
  | 0 => simp [bin_mask, oLt_none_left]
  | 1 => simp [bin_mask, oLe_none_right]
  | 2 => simp [bin_mask, oLe_none_right]
  | 3 => simp [bin_mask, oLe_none_right]
  | 4 => simp [bin_mask, oLe_none_right]
  | 5 => simp [bin_mask, oLe_none_right]
  | (n + 6) => rfl

theorem alignGrid_entry_of_not_col {df : DFrame} (cz : DFrame) {z : String}
    (hz : z ∉ df.cols) (t : Nat) : (alignGrid df cz).entry t z = none := by
  have hraw : ∀ s, rawCell df z s = none := by
    intro s
    unfold rawCell
    rw [if_neg]
    intro hand
    exact hz hand.2
  have hff : ∀ u, ffillAt cz.index (rawCell df z) u = none := by
    intro u
    unfold ffillAt
    rw [List.filterMap_eq_nil.2 (fun a _ => hraw a)]
    rfl
  show bfillAt cz.index (ffillAt cz.index (rawCell df z)) t = none
  unfold bfillAt
  rw [List.filterMap_eq_nil.2 (fun a _ => hff a)]
  rfl

/-- C8 (amended): any `None` or empty input makes the classifier return the
`None` sentinel; but zero column overlap between the temperature/setpoint
tables and the zonal-cooling grid does NOT yield the sentinel — the
classifier returns a full six-bin table in which every bin is zero, because
the all-NaN aligned cells match no bin (see
`classifier_failure_counterexample`). -/
theorem classifier_failure_modes :
    (∀ pn h c cz, categorize_cooling_by_iat_bins_from_data pn none h c cz = none)
    ∧ (∀ pn i c cz, categorize_cooling_by_iat_bins_from_data pn i none c cz = none)
    ∧ (∀ pn i h cz, categorize_cooling_by_iat_bins_from_data pn i h none cz = none)
    ∧ (∀ pn i h c, categorize_cooling_by_iat_bins_from_data pn i h c none = none)
    ∧ (∀ pn iatF h c cz, iatF.isEmpty = true →
        categorize_cooling_by_iat_bins_from_data pn (some iatF) h c cz = none)
    ∧ (∀ pn i hspF c cz, hspF.isEmpty = true →
        categorize_cooling_by_iat_bins_from_data pn i (some hspF) c cz = none)
    ∧ (∀ pn i h cspF cz, cspF.isEmpty = true →
        categorize_cooling_by_iat_bins_from_data pn i h (some cspF) cz = none)
    ∧ (∀ pn i h c czF, czF.isEmpty = true →
        categorize_cooling_by_iat_bins_from_data pn i h c (some czF) = none)
    ∧ (∀ pn iatF hspF cspF czF b,
        categorize_cooling_by_iat_bins_from_data pn (some iatF) (some hspF)
          (some cspF) (some czF) = some b →
        (∀ z ∈ czF.cols, z ∉ iatF.cols) →
        ∀ t, ∀ n ∈ bin_names, b.entry t n = some 0) := by
  refine ⟨?_, ?_, ?_, ?_, ?_, ?_, ?_, ?_, ?_⟩
  · intro pn h c cz; rfl
  · intro pn i c cz; cases i <;> rfl
  · intro pn i h cz; cases i <;> cases h <;> rfl
  · intro pn i h c; cases i <;> cases h <;> cases c <;> rfl
  · intro pn iatF h c cz hemp
    cases h <;> cases c <;> cases cz <;>
      simp [categorize_cooling_by_iat_bins_from_data, hemp]
  · intro pn i hspF c cz hemp
    cases i <;> cases c <;> cases cz <;>
      simp [categorize_cooling_by_iat_bins_from_data, hemp]
  · intro pn i h cspF cz hemp
    cases i <;> cases h <;> cases cz <;>
      simp [categorize_cooling_by_iat_bins_from_data, hemp]
  · intro pn i h c czF hemp
    cases i <;> cases h <;> cases c <;>
      simp [categorize_cooling_by_iat_bins_from_data, hemp]
  · intro pn iatF hspF cspF czF b hres hcols t n hn
    have hb := categorize_eq_some hres
    subst hb
    have hzero : ∀ k, bin_cooling iatF hspF cspF czF k t = 0 := by
      intro k
      refine List.sum_eq_zero ?_
      intro x hx
      rcases List.mem_map.1 hx with ⟨z, hz, rfl⟩
      rw [alignGrid_entry_of_not_col czF (hcols z hz) t, bin_mask_none]
      rfl
    simp only [bin_names, List.mem_cons, List.not_mem_nil, or_false] at hn
    rcases hn with rfl | rfl | rfl | rfl | rfl | rfl
    · show (binned_out iatF hspF cspF czF).entry t binName1 = some 0
      rw [show (binned_out iatF hspF cspF czF).entry t binName1
        = some (bin_cooling iatF hspF cspF czF 0 t) from rfl, hzero]
    · rw [show (binned_out iatF hspF cspF czF).entry t binName2
        = some (bin_cooling iatF hspF cspF czF 1 t) from rfl, hzero]
    · rw [show (binned_out iatF hspF cspF czF).entry t binName3
        = some (bin_cooling iatF hspF cspF czF 2 t) from rfl, hzero]
    · rw [show (binned_out iatF hspF cspF czF).entry t binName4
        = some (bin_cooling iatF hspF cspF czF 3 t) from rfl, hzero]
    · rw [show (binned_out iatF hspF cspF czF).entry t binName5
        = some (bin_cooling iatF hspF cspF czF 4 t) from rfl, hzero]
    · rw [show (binned_out iatF hspF cspF czF).entry t binName6
        = some (bin_cooling iatF hspF cspF czF 5 t) from rfl, hzero]

/-- A temperature/setpoint table whose only column is zone B (zero overlap
with the zone-A-only zonal cooling grid). -/
def exIatB : DFrame := ⟨[0], [zB], fun _ z => if z = zB then some 72 else none⟩

theorem classifier_failure_counterexample :
    (categorize_cooling_by_iat_bins_from_data pname (some exIatB) (some exIatB)
        (some exIatB) (some exCzInv)
      = some (binned_out exIatB exIatB exIatB exCzInv))
    ∧ (binned_out exIatB exIatB exIatB exCzInv).index = [0]
    ∧ (binned_out exIatB exIatB exIatB exCzInv).isEmpty = false
    ∧ (∀ n ∈ bin_names, (binned_out exIatB exIatB exIatB exCzInv).entry 0 n
        = some 0) := by
  refine ⟨?_, ?_, ?_, of_decide_eq_true ?_⟩ <;> with_unfolding_all rfl

theorem classifier_failure_witness :
    categorize_cooling_by_iat_bins_from_data pname none (some exHsp)
        (some exCsp) (some exOut) = none
    ∧ categorize_cooling_by_iat_bins_from_data pname (some exIat) (some exHsp)
        (some exCsp) (some exOutZero) = none
    ∧ (∀ t, ∀ n ∈ bin_names,
        (binned_out exIatB exIatB exIatB exCzInv).entry t n = some 0) :=
  ⟨classifier_failure_modes.1 pname (some exHsp) (some exCsp) (some exOut),
    (classifier_failure_modes.2.2.2.2.2.2.2.1) pname (some exIat) (some exHsp)
      (some exCsp) exOutZero (by with_unfolding_all rfl),
    (classifier_failure_modes.2.2.2.2.2.2.2.2) pname exIatB exIatB exIatB
      exCzInv (binned_out exIatB exIatB exIatB exCzInv)
      (by with_unfolding_all rfl)
      (by intro z hz
          have hc : exCzInv.cols = [zA] := rfl
          rw [hc] at hz
          simp only [List.mem_singleton] at hz
          subst hz
          intro hmem
          have hb : exIatB.cols = [zB] := rfl
          rw [hb] at hmem
          simp only [List.mem_singleton] at hmem
          exact absurd hmem (by decide))⟩

theorem foldl_min_le_init : ∀ (l : List Nat) (a : Nat), l.foldl min a ≤ a := by
  intro l
  induction l with
  | nil => intro a; exact le_refl a
  | cons b R ih =>
    intro a
    calc (b :: R).foldl min a = R.foldl min (min a b) := rfl
      _ ≤ min a b := ih (min a b)
      _ ≤ a := min_le_left a b

theorem foldl_min_le_mem : ∀ (l : List Nat) (a s : Nat), s ∈ l → l.foldl min a ≤ s := by
  intro l
  induction l with
  | nil => intro a s hs; cases hs
  | cons b R ih =>
    intro a s hs
    rcases List.mem_cons.1 hs with rfl | hmem
    · calc (s :: R).foldl min a = R.foldl min (min a s) := rfl
        _ ≤ min a s := foldl_min_le_init R (min a s)
        _ ≤ s := min_le_right a s
    · exact ih (min a b) s hmem

theorem foldl_min_eq_init_or_mem : ∀ (l : List Nat) (a : Nat),
    l.foldl min a = a ∨ l.foldl min a ∈ l := by
  intro l
  induction l with
  | nil => intro a; exact Or.inl rfl
  | cons b R ih =>
    intro a
    rcases ih (min a b) with h | h
    · rcases Nat.le_total a b with hab | hab
      · left
        calc (b :: R).foldl min a = R.foldl min (min a b) := rfl
          _ = min a b := h
          _ = a := min_eq_left hab
      · right
        have hb : (b :: R).foldl min a = b := by
          calc (b :: R).foldl min a = R.foldl min (min a b) := rfl
            _ = min a b := h
            _ = b := min_eq_right hab
        rw [hb]
        exact List.mem_cons_self b R
    · right
      exact List.mem_cons_of_mem b h

theorem le_foldl_max_init : ∀ (l : List Nat) (a : Nat), a ≤ l.foldl max a := by
  intro l
  induction l with
  | nil => intro a; exact le_refl a
  | cons b R ih =>
    intro a
    calc a ≤ max a b := le_max_left a b
      _ ≤ R.foldl max (max a b) := ih (max a b)
      _ = (b :: R).foldl max a := rfl

theorem le_foldl_max_mem : ∀ (l : List Nat) (a s : Nat), s ∈ l → s ≤ l.foldl max a := by
  intro l
  induction l with
  | nil => intro a s hs; cases hs
  | cons b R ih =>
    intro a s hs
    rcases List.mem_cons.1 hs with rfl | hmem
    · calc s ≤ max a s := le_max_right a s
        _ ≤ R.foldl max (max a s) := le_foldl_max_init R (max a s)
        _ = (s :: R).foldl max a := rfl
    · exact ih (max a b) s hmem

theorem foldl_max_eq_init_or_mem : ∀ (l : List Nat) (a : Nat),
    l.foldl max a = a ∨ l.foldl max a ∈ l := by
  intro l
  induction l with
  | nil => intro a; exact Or.inl rfl
  | cons b R ih =>
    intro a
    rcases ih (max a b) with h | h
    · rcases Nat.le_total a b with hab | hab
      · right
        have hb : (b :: R).foldl max a = b := by
          calc (b :: R).foldl max a = R.foldl max (max a b) := rfl
            _ = max a b := h
            _ = b := max_eq_right hab
        rw [hb]
        exact List.mem_cons_self b R
      · left
        calc (b :: R).foldl max a = R.foldl max (max a b) := rfl
          _ = max a b := h
          _ = a := max_eq_left hab
    · right
      exact List.mem_cons_of_mem b h

theorem listMin_le_mem {l : List Nat} {s : Nat} (hs : s ∈ l) : listMin l ≤ s :=
  foldl_min_le_mem l (l.headD 0) s hs

theorem le_listMax_mem {l : List Nat} {s : Nat} (hs : s ∈ l) : s ≤ listMax l :=
  le_foldl_max_mem l 0 s hs

theorem listMin_mem {l : List Nat} (h : l ≠ []) : listMin l ∈ l := by
  rcases foldl_min_eq_init_or_mem l (l.headD 0) with he | hm
  · rcases l with _ | ⟨a, R⟩
    · exact absurd rfl h
    · rw [listMin, he]
      exact List.mem_cons_self a R
  · exact hm

theorem listMax_mem {l : List Nat} (h : l ≠ []) : listMax l ∈ l := by
  rcases foldl_max_eq_init_or_mem l 0 with he | hm
  · rcases l with _ | ⟨a, R⟩
    · exact absurd rfl h
    · have ha : a ≤ listMax (a :: R) := le_listMax_mem (List.mem_cons_self a R)
      have h0 : listMax (a :: R) = 0 := he
      have ha0 : a = 0 := by omega
      rw [h0, ← ha0]
      exact List.mem_cons_self a R
  · exact hm

theorem filter_ge_eq_cons {l : List Nat} (hs : l.Pairwise (· < ·)) {t : Nat}
    (ht : t ∈ l) :
    l.filter (fun u => decide (t ≤ u)) = t :: l.filter (fun u => decide (t < u)) := by
  induction l with
  | nil => cases ht
  | cons a R ih =>
    have hR := (List.pairwise_cons.1 hs).1
    have htl := (List.pairwise_cons.1 hs).2
    rcases List.mem_cons.1 ht with rfl | hmem
    · have e1 : decide (t ≤ t) = true := decide_eq_true (le_refl t)
      have e2 : decide (t < t) = false := decide_eq_false (lt_irrefl t)
      simp only [List.filter_cons, e1, e2, if_true, if_false, ite_true, ite_false]
      refine congrArg (List.cons t) (List.filter_congr ?_)
      intro b hb
      have hb2 : t < b := hR b hb
      rw [decide_eq_true hb2.le, decide_eq_true hb2]
    · have hat : a < t := hR t hmem
      have e1 : decide (t ≤ a) = false := decide_eq_false (not_le.2 hat)
      have e2 : decide (t < a) = false := decide_eq_false (not_lt.2 hat.le)
      simp only [List.filter_cons, e1, e2, if_false, ite_false]
      exact ih htl hmem

theorem filter_le_split {l : List Nat} (hs : l.Pairwise (· < ·)) {t u : Nat}
    (htu : t ≤ u) :
    l.filter (fun s => decide (s ≤ u))
      = l.filter (fun s => decide (s ≤ t))
        ++ l.filter (fun s => decide (s ≤ u) && decide (t < s)) := by
  induction l with
  | nil => rfl
  | cons a R ih =>
    have htl := (List.pairwise_cons.1 hs).2
    rcases le_or_lt a t with hat | hat
    · have e1 : decide (a ≤ u) = true := decide_eq_true (le_trans hat htu)
      have e2 : decide (a ≤ t) = true := decide_eq_true hat
      have e3 : decide (t < a) = false := decide_eq_false (not_lt.2 hat)
      simp only [List.filter_cons, e1, e2, e3, Bool.and_false, if_true,
        if_false, ite_true, ite_false, List.cons_append]
      exact congrArg (List.cons a) (ih htl)
    · have e2 : decide (a ≤ t) = false := decide_eq_false (not_le.2 hat)
      have e3 : decide (t < a) = true := decide_eq_true hat
      have hpre : R.filter (fun s => decide (s ≤ t)) = [] := by
        refine List.filter_eq_nil_iff.2 ?_
        intro b hb
        have hab : a < b := (List.pairwise_cons.1 hs).1 b hb
        simp only [decide_eq_true_eq]
        omega
      rcases le_or_lt a u with hau | hau
      · have e1 : decide (a ≤ u) = true := decide_eq_true hau
        simp only [List.filter_cons, e1, e2, e3, Bool.and_true, if_true,
          if_false, ite_true, ite_false]
        rw [ih htl, hpre]
        rfl
      · have e1 : decide (a ≤ u) = false := decide_eq_false (not_le.2 hau)
        simp only [List.filter_cons, e1, e2, e3, Bool.false_and, if_false,
          ite_false]
        exact ih htl

theorem heads_agree (f g : Nat → Option ℚ) :
    ∀ Q : List Nat, Q.Pairwise (· < ·) →
      (∀ u ∈ Q, g u = ((Q.filter (fun s => decide (s ≤ u))).filterMap f).getLast?) →
      (Q.filterMap g).head? = (Q.filterMap f).head? := by
  intro Q
  induction Q with
  | nil => intro _ _; rfl
  | cons a R ih =>
    intro hp hg
    have hR := (List.pairwise_cons.1 hp).1
    have htl := (List.pairwise_cons.1 hp).2
    have hfila : (a :: R).filter (fun s => decide (s ≤ a)) = [a] := by
      have e1 : decide (a ≤ a) = true := decide_eq_true (le_refl a)
      simp only [List.filter_cons, e1, if_true, ite_true]
      rw [List.filter_eq_nil_iff.2 ?_]
      intro b hb
      simp only [decide_eq_true_eq]
      have := hR b hb
      omega
    have hga : g a = f a := by
      have h0 := hg a (List.mem_cons_self a R)
      rw [hfila] at h0
      rcases hfa : f a with _ | v <;> rw [h0] <;>
        simp [List.filterMap_cons, hfa]
    rcases hfa : f a with _ | v
    · have hga0 : g a = none := by rw [hga, hfa]
      have l1 : (a :: R).filterMap g = R.filterMap g := by
        rw [List.filterMap_cons, hga0]
      have l2 : (a :: R).filterMap f = R.filterMap f := by
        rw [List.filterMap_cons, hfa]
      rw [l1, l2]
      refine ih htl ?_
      intro u hu
      have h0 := hg u (List.mem_cons_of_mem a hu)
      rw [h0]
      have hau : a < u := hR u hu
      have e1 : decide (a ≤ u) = true := decide_eq_true hau.le
      simp only [List.filter_cons, e1, if_true, ite_true, List.filterMap_cons, hfa]
    · have hgav : g a = some v := by rw [hga, hfa]
      have l1 : (a :: R).filterMap g = v :: R.filterMap g := by
        rw [List.filterMap_cons, hgav]
      have l2 : (a :: R).filterMap f = v :: R.filterMap f := by
        rw [List.filterMap_cons, hfa]
      rw [l1, l2]
      rfl

/-- Modelled from the claim's wording: at an axis point `t`, take the value
of the nearest earlier sample on the axis (the last present value at or
before `t`); for a leading gap (no sample at or before `t`), take the value
of the nearest later sample. -/
def nearestFill (l : List Nat) (f : Nat → Option ℚ) (t : Nat) : Option ℚ :=
  match ((l.filter (fun s => s ≤ t)).filterMap f).getLast? with
  | some v => some v
  | none => ((l.filter (fun u => t < u)).filterMap f).head?

theorem alignAt_eq_nearest {l : List Nat} (hs : l.Pairwise (· < ·))
    (f : Nat → Option ℚ) {t : Nat} (ht : t ∈ l) :
    alignAt l f t = nearestFill l f t := by
  unfold alignAt bfillAt
  rw [filter_ge_eq_cons hs ht]
  rcases hft : ffillAt l f t with _ | v
  · have l1 : (t :: l.filter (fun u => decide (t < u))).filterMap (ffillAt l f)
        = (l.filter (fun u => decide (t < u))).filterMap (ffillAt l f) := by
      rw [List.filterMap_cons, hft]
    rw [l1]
    unfold nearestFill
    rw [show ((l.filter (fun s => decide (s ≤ t))).filterMap f).getLast?
      = ffillAt l f t from rfl, hft]
    refine heads_agree f (ffillAt l f) _
      (List.Pairwise.sublist (List.filter_sublist l) hs) ?_
    intro u hu
    have hmem := List.mem_filter.1 hu
    have htu : t < u := by
      have := hmem.2
      simpa using this
    unfold ffillAt
    rw [filter_le_split hs htu.le, List.filterMap_append]
    have hpre : (l.filter (fun s => decide (s ≤ t))).filterMap f = [] :=
      List.getLast?_eq_none_iff.1 hft
    rw [hpre, List.nil_append, List.filter_filter]
  · have l1 : (t :: l.filter (fun u => decide (t < u))).filterMap (ffillAt l f)
        = v :: (l.filter (fun u => decide (t < u))).filterMap (ffillAt l f) := by
      rw [List.filterMap_cons, hft]
    rw [l1]
    unfold nearestFill
    rw [show ((l.filter (fun s => decide (s ≤ t))).filterMap f).getLast?
      = ffillAt l f t from rfl, hft]
    rfl

theorem common_index_pairwise (dd ii aa : DFrame) (cc : SeriesQ) :
    (common_index dd ii aa cc).Pairwise (· < ·) :=
  List.pairwise_lt_range' _ _ 1

/-- C9: the common axis is the fixed-step hourly axis spanning the extremes
of the union of the four input time indices (its members are exactly the
hours between the union's minimum and maximum, both of which are attained by
some input index), and after reindexing each input onto it, every axis point
holds the value of the nearest earlier sample, and a leading gap (no earlier
sample) holds the value of the nearest later sample (`nearestFill`). -/
theorem time_alignment (dd ii aa : DFrame) (cc : SeriesQ)
    (hne : all_indices dd ii aa cc ≠ []) :
    (∀ s ∈ all_indices dd ii aa cc,
      listMin (all_indices dd ii aa cc) ≤ s
      ∧ s ≤ listMax (all_indices dd ii aa cc))
    ∧ listMin (all_indices dd ii aa cc) ∈ all_indices dd ii aa cc
    ∧ listMax (all_indices dd ii aa cc) ∈ all_indices dd ii aa cc
    ∧ (∀ t, t ∈ common_index dd ii aa cc ↔
        listMin (all_indices dd ii aa cc) ≤ t
        ∧ t ≤ listMax (all_indices dd ii aa cc))
    ∧ (∀ t ∈ common_index dd ii aa cc, ∀ c,
        (iat_aligned dd ii aa cc).entry t c
          = nearestFill (common_index dd ii aa cc) (rawCell ii c) t)
    ∧ (∀ t ∈ common_index dd ii aa cc, ∀ c,
        (airflow_aligned dd ii aa cc).entry t c
          = nearestFill (common_index dd ii aa cc) (rawCell aa c) t)
    ∧ (∀ t ∈ common_index dd ii aa cc, ∀ c,
        (dat_ahu_aligned dd ii aa cc).entry t c
          = nearestFill (common_index dd ii aa cc) (rawCell dd c) t)
    ∧ (∀ t ∈ common_index dd ii aa cc,
        (cooling_aligned dd ii aa cc).val t
          = nearestFill (common_index dd ii aa cc) (rawVal cc) t) := by
  have hlohi : listMin (all_indices dd ii aa cc) ≤ listMax (all_indices dd ii aa cc) := by
    have hm := listMin_mem hne
    exact le_listMax_mem hm
  have hmemiff : ∀ t, t ∈ common_index dd ii aa cc ↔
      listMin (all_indices dd ii aa cc) ≤ t
      ∧ t ≤ listMax (all_indices dd ii aa cc) := by
    intro t
    unfold common_index
    rw [List.mem_range'_1]
    omega
  refine ⟨?_, listMin_mem hne, listMax_mem hne, hmemiff, ?_, ?_, ?_, ?_⟩
  · intro s hs
    exact ⟨listMin_le_mem hs, le_listMax_mem hs⟩
  · intro t ht c
    exact alignAt_eq_nearest (common_index_pairwise dd ii aa cc) (rawCell ii c) ht
  · intro t ht c
    exact alignAt_eq_nearest (common_index_pairwise dd ii aa cc) (rawCell aa c) ht
  · intro t ht c
    exact alignAt_eq_nearest (common_index_pairwise dd ii aa cc) (rawCell dd c) ht
  · intro t ht
    exact alignAt_eq_nearest (common_index_pairwise dd ii aa cc) (rawVal cc) ht

/-- A DAT table with an interior gap: samples at hours 0 and 3 only. -/
def exDatGap : DFrame :=
  ⟨[0, 3], [ahu1], fun t a =>
    if a = ahu1 then (if t = 0 then some 55 else some 60) else none⟩

/-- A building-cooling series covering hours 0 through 3. -/
def exCoolingLong : SeriesQ := ⟨[0, 1, 2, 3], fun _ => some 150⟩

theorem time_alignment_witness :
    ((dat_ahu_aligned exDatGap exIat exAirflow exCoolingLong).entry 1 ahu1
      = nearestFill (common_index exDatGap exIat exAirflow exCoolingLong)
          (rawCell exDatGap ahu1) 1)
    ∧ nearestFill (common_index exDatGap exIat exAirflow exCoolingLong)
        (rawCell exDatGap ahu1) 1 = some 55
    ∧ (2 ∈ common_index exDatGap exIat exAirflow exCoolingLong ↔
        listMin (all_indices exDatGap exIat exAirflow exCoolingLong) ≤ 2
        ∧ 2 ≤ listMax (all_indices exDatGap exIat exAirflow exCoolingLong)) :=
  ⟨(time_alignment exDatGap exIat exAirflow exCoolingLong
      (by decide)).2.2.2.2.2.2.1 1 (by decide) ahu1,
    by with_unfolding_all rfl,
    (time_alignment exDatGap exIat exAirflow exCoolingLong
      (by decide)).2.2.2.1 2⟩
